import Mathlib

/-!
Shallow embedding of the OAuth-proxy / credential-bridging subsystem of the
`meta-graph-api-mcp-server` repository (`src/index.ts`), together with proofs
about its behaviour.

Modelling conventions:
* JavaScript strings are `List Char` (`JStr`).
* The opaque external encodings the code relies on (base64url, `JSON.stringify`
  / `JSON.parse` of the JWT payload, and HMAC-SHA256) are replaced by concrete
  executable stand-ins that have the properties the code depends on:
  deterministic, injective, and producing output free of the `'.'` separator.
  The payload codec is `encodePayload` / `decodePayload`; the keyed hash is
  `hmacSign`.
* The in-memory `Map` tables are total functions `JStr → Option α`.
* Randomness (`crypto.randomBytes`) and the clock (`Date.now()`) are explicit
  parameters of each operation.  Timestamps held in the stores are in
  milliseconds, JWT `iat`/`exp` are in seconds, exactly as in the source.
* Outbound HTTP traffic of the Facebook exchange is abstracted as an
  `ExchangeEnv` environment recording, for each of the four upstream calls,
  how that call would respond.
-/

namespace MetaGraph

/-- JavaScript strings are modelled as lists of characters. -/
abbrev JStr := List Char

/-! ### Character/number codec

Stand-in for the base64url + JSON encoding used by the JWT helpers.  A
character is encoded as six base-16 digit characters (`'a'`–`'p'`,
little-endian); a natural number as a variable-length string of the same digit
characters. -/

/-- The character for one base-16 digit (`0 ↦ 'a'`, …, `15 ↦ 'p'`). -/
def digitChar (d : Nat) : Char := Char.ofNat (97 + d)

/-- Inverse of `digitChar`. -/
def charDigit (c : Char) : Nat := c.toNat - 97

/-- Value of a little-endian base-16 digit string. -/
def decVal (l : JStr) : Nat := l.foldr (fun c acc => charDigit c + 16 * acc) 0

/-- Fixed-width (6 digit) encoding of one character code point. -/
def encChar (n : Nat) : JStr :=
  [digitChar (n % 16), digitChar (n / 16 % 16), digitChar (n / 256 % 16),
   digitChar (n / 4096 % 16), digitChar (n / 65536 % 16), digitChar (n / 1048576 % 16)]

/-- Variable-width little-endian base-16 encoding of a natural number,
with explicit fuel to keep the recursion structural. -/
def encNatAux : Nat → Nat → JStr
  | 0, _ => []
  | fuel + 1, n => if n = 0 then [] else digitChar (n % 16) :: encNatAux fuel (n / 16)

/-- Variable-width encoding of a natural number. -/
def encNat (n : Nat) : JStr := encNatAux n n

/-- Encoding of a string: the concatenation of its characters' encodings. -/
def encField (s : JStr) : JStr := s.foldr (fun c acc => encChar c.toNat ++ acc) []

/-- Decoding of a string encoded by `encField`: consume six digit characters
per original character. -/
def decField : JStr → Option JStr
  | [] => some []
  | c1 :: c2 :: c3 :: c4 :: c5 :: c6 :: rest =>
      (decField rest).map (fun s => Char.ofNat (decVal [c1, c2, c3, c4, c5, c6]) :: s)
  | _ => none

/-! ### Codec roundtrip lemmas -/

theorem decVal_nil : decVal [] = 0 := rfl

theorem decVal_cons (c : Char) (l : JStr) :
    decVal (c :: l) = charDigit c + 16 * decVal l := rfl

theorem charDigit_digitChar {d : Nat} (h : d < 16) : charDigit (digitChar d) = d := by
  have : ∀ e : Fin 16, charDigit (digitChar e.val) = e.val := by decide
  exact this ⟨d, h⟩

theorem char_toNat_lt (c : Char) : c.toNat < 16777216 := by
  rcases c.valid with h | h
  · exact lt_trans h (by norm_num)
  · exact lt_trans h.2 (by norm_num)

theorem decVal_encChar {n : Nat} (h : n < 16777216) : decVal (encChar n) = n := by
  have h0 := charDigit_digitChar (show n % 16 < 16 by omega)
  have h1 := charDigit_digitChar (show n / 16 % 16 < 16 by omega)
  have h2 := charDigit_digitChar (show n / 256 % 16 < 16 by omega)
  have h3 := charDigit_digitChar (show n / 4096 % 16 < 16 by omega)
  have h4 := charDigit_digitChar (show n / 65536 % 16 < 16 by omega)
  have h5 := charDigit_digitChar (show n / 1048576 % 16 < 16 by omega)
  simp [encChar, decVal_cons, decVal_nil, h0, h1, h2, h3, h4, h5]
  omega

theorem decVal_encNatAux {fuel n : Nat} (h : n ≤ fuel) :
    decVal (encNatAux fuel n) = n := by
  induction fuel generalizing n with
  | zero => interval_cases n; simp [encNatAux, decVal_nil]
  | succ fuel ih =>
      by_cases hn : n = 0
      · simp [encNatAux, hn, decVal_nil]
      · have hlt : n / 16 < n := Nat.div_lt_self (Nat.pos_of_ne_zero hn) (by norm_num)
        have hq : n / 16 ≤ fuel := by omega
        have hd := charDigit_digitChar (show n % 16 < 16 by omega)
        simp [encNatAux, hn, decVal_cons, ih hq, hd]
        omega

theorem decVal_encNat (n : Nat) : decVal (encNat n) = n := decVal_encNatAux le_rfl

theorem encField_cons (c : Char) (s : JStr) :
    encField (c :: s) = encChar c.toNat ++ encField s := rfl

theorem decField_encField (s : JStr) : decField (encField s) = some s := by
  induction s with
  | nil => rfl
  | cons c s ih =>
      have hb : c.toNat < 16777216 := char_toNat_lt c
      rw [encField_cons]
      show decField (digitChar (c.toNat % 16) :: digitChar (c.toNat / 16 % 16) ::
        digitChar (c.toNat / 256 % 16) :: digitChar (c.toNat / 4096 % 16) ::
        digitChar (c.toNat / 65536 % 16) :: digitChar (c.toNat / 1048576 % 16) ::
        encField s) = some (c :: s)
      rw [decField]
      have hv : decVal [digitChar (c.toNat % 16), digitChar (c.toNat / 16 % 16),
          digitChar (c.toNat / 256 % 16), digitChar (c.toNat / 4096 % 16),
          digitChar (c.toNat / 65536 % 16), digitChar (c.toNat / 1048576 % 16)]
          = c.toNat := decVal_encChar hb
      rw [hv, ih, Char.ofNat_toNat]
      rfl

/-! ### Characters produced by the codec are plain digit characters -/

theorem mem_encChar {c : Char} {n : Nat} (h : c ∈ encChar n) :
    ∃ d, d < 16 ∧ c = digitChar d := by
  simp [encChar] at h
  rcases h with h | h | h | h | h | h <;> subst h <;>
    exact ⟨_, by omega, rfl⟩

theorem mem_encNatAux {c : Char} {fuel n : Nat} (h : c ∈ encNatAux fuel n) :
    ∃ d, d < 16 ∧ c = digitChar d := by
  induction fuel generalizing n with
  | zero => simp [encNatAux] at h
  | succ fuel ih =>
      by_cases hn : n = 0
      · simp [encNatAux, hn] at h
      · simp [encNatAux, hn] at h
        rcases h with h | h
        · exact ⟨n % 16, by omega, h⟩
        · exact ih h

theorem mem_encNat {c : Char} {n : Nat} (h : c ∈ encNat n) :
    ∃ d, d < 16 ∧ c = digitChar d := mem_encNatAux h

theorem mem_encField {c : Char} {s : JStr} (h : c ∈ encField s) :
    ∃ d, d < 16 ∧ c = digitChar d := by
  induction s with
  | nil => simp [encField] at h
  | cons x s ih =>
      rw [encField_cons] at h
      rcases List.mem_append.mp h with h | h
      · exact mem_encChar h
      · exact ih h

theorem digitChar_ne_dot {d : Nat} (h : d < 16) : digitChar d ≠ '.' := by
  have : ∀ e : Fin 16, digitChar e.val ≠ '.' := by decide
  exact this ⟨d, h⟩

theorem digitChar_ne_comma {d : Nat} (h : d < 16) : digitChar d ≠ ',' := by
  have : ∀ e : Fin 16, digitChar e.val ≠ ',' := by decide
  exact this ⟨d, h⟩

theorem encField_sep_free (s : JStr) (sep : Char)
    (hsep : ∀ d, d < 16 → digitChar d ≠ sep) : ∀ c ∈ encField s, c ≠ sep := by
  intro c hc
  obtain ⟨d, hd, rfl⟩ := mem_encField hc
  exact hsep d hd

theorem encNat_sep_free (n : Nat) (sep : Char)
    (hsep : ∀ d, d < 16 → digitChar d ≠ sep) : ∀ c ∈ encNat n, c ≠ sep := by
  intro c hc
  obtain ⟨d, hd, rfl⟩ := mem_encNat hc
  exact hsep d hd

/-! ### Splitting on a separator character

Executable model of JavaScript's `String.prototype.split` with a single-character
separator (`"".split(".") = [""]`, `"a.".split(".") = ["a", ""]`). -/

/-- Helper returning the first component and the remaining components. -/
def splitOnCAux (sep : Char) : JStr → JStr × List JStr
  | [] => ([], [])
  | c :: rest =>
      let r := splitOnCAux sep rest
      if c = sep then ([], r.1 :: r.2) else (c :: r.1, r.2)

/-- JavaScript `split` on one separator character. -/
def splitOnC (sep : Char) (l : JStr) : List JStr :=
  (splitOnCAux sep l).1 :: (splitOnCAux sep l).2

theorem splitOnCAux_sep_free {sep : Char} {l : JStr} (h : ∀ c ∈ l, c ≠ sep) :
    splitOnCAux sep l = (l, []) := by
  induction l with
  | nil => rfl
  | cons c rest ih =>
      have hc : c ≠ sep := h c (by simp)
      have := ih (fun x hx => h x (by simp [hx]))
      simp [splitOnCAux, hc, this]

theorem splitOnCAux_append {sep : Char} {a b : JStr} (h : ∀ c ∈ a, c ≠ sep) :
    splitOnCAux sep (a ++ sep :: b) =
      (a, (splitOnCAux sep b).1 :: (splitOnCAux sep b).2) := by
  induction a with
  | nil => simp [splitOnCAux]
  | cons c rest ih =>
      have hc : c ≠ sep := h c (by simp)
      have := ih (fun x hx => h x (by simp [hx]))
      simp [splitOnCAux, hc, this]

theorem splitOnC_sep_free {sep : Char} {l : JStr} (h : ∀ c ∈ l, c ≠ sep) :
    splitOnC sep l = [l] := by
  simp [splitOnC, splitOnCAux_sep_free h]

theorem splitOnC_append {sep : Char} {a b : JStr} (h : ∀ c ∈ a, c ≠ sep) :
    splitOnC sep (a ++ sep :: b) = a :: splitOnC sep b := by
  simp [splitOnC, splitOnCAux_append h]

theorem splitOnC_three {sep : Char} {a b c : JStr}
    (ha : ∀ x ∈ a, x ≠ sep) (hb : ∀ x ∈ b, x ≠ sep) (hc : ∀ x ∈ c, x ≠ sep) :
    splitOnC sep (a ++ sep :: (b ++ sep :: c)) = [a, b, c] := by
  rw [splitOnC_append ha, splitOnC_append hb, splitOnC_sep_free hc]

/-! ### JWT utilities

Embedding of the `createJWT` / `verifyJWT` functions of `src/index.ts`.
The payload literally stored by the code is `{...claims, iat, exp, jti}` where
the only claims records ever passed are `{sub, scope}`. -/

/-- The claims record callers pass to `createJWT` (`{ sub, scope }`). -/
structure JWTClaims where
  sub : JStr
  scope : JStr
deriving DecidableEq, Repr

/-- The full JWT payload minted by `createJWT`: the caller's claims plus
`iat` (issue time, seconds), `exp` (expiry, seconds) and a random `jti`. -/
structure JWTPayload where
  sub : JStr
  scope : JStr
  iat : Nat
  exp : Nat
  jti : JStr
deriving DecidableEq, Repr

/-- Stand-in for `base64url(JSON.stringify({alg:"HS256",typ:"JWT"}))`:
a fixed separator-free string. -/
def headerB64 : JStr := encField ("HS256JWT".data)

/-- Stand-in for `base64url(JSON.stringify(fullPayload))`. -/
def encodePayload (p : JWTPayload) : JStr :=
  encField p.sub ++ ',' :: (encField p.scope ++ ',' :: (encNat p.iat ++ ',' ::
    (encNat p.exp ++ ',' :: encField p.jti)))

/-- Stand-in for `JSON.parse(base64urlDecode(payloadB64))`; `none` models the
caught exception of a malformed payload. -/
def decodePayload (s : JStr) : Option JWTPayload :=
  match splitOnC ',' s with
  | [a, b, c, d, e] => do
      let sub ← decField a
      let scope ← decField b
      let jti ← decField e
      pure ⟨sub, scope, decVal c, decVal d, jti⟩
  | _ => none

/-- Stand-in for `crypto.createHmac("sha256", secret).update(msg).digest("base64url")`:
deterministic, injective, separator-free keyed digest. -/
def hmacSign (secret msg : JStr) : JStr := encField (secret ++ '|' :: msg)

/-- `createJWT(payload, expiresIn)` of `src/index.ts`.  `nowSec` models
`Math.floor(Date.now() / 1000)` and `jti` the random `crypto.randomBytes(16)`
identifier generated inside the function. -/
def createJWT (secret : JStr) (nowSec : Nat) (jti : JStr) (claims : JWTClaims)
    (expiresIn : Nat) : JStr :=
  let fullPayload : JWTPayload :=
    { sub := claims.sub, scope := claims.scope, iat := nowSec,
      exp := nowSec + expiresIn, jti := jti }
  let payloadB64 := encodePayload fullPayload
  let signature := hmacSign secret (headerB64 ++ '.' :: payloadB64)
  headerB64 ++ '.' :: (payloadB64 ++ '.' :: signature)

/-- JavaScript's destructuring `const [h, p, s] = token.split(".")`: a missing
part is `undefined`, which stringifies to `"undefined"` inside the template
literal fed to the HMAC. -/
def jsPart (parts : List JStr) (i : Nat) : JStr := (parts.get? i).getD ("undefined".data)

/-- `verifyJWT(token)` of `src/index.ts`.  Returns `none` for `{valid: false}`
and `some payload` for `{valid: true, payload}`; `nowSec` models
`Math.floor(Date.now() / 1000)`.  The `try/catch` of the source is modelled by
`decodePayload` returning `none`. -/
def verifyJWT (secret : JStr) (nowSec : Nat) (token : JStr) : Option JWTPayload :=
  let parts := splitOnC '.' token
  let hB64 := jsPart parts 0
  let pB64 := jsPart parts 1
  let expectedSig := hmacSign secret (hB64 ++ '.' :: pB64)
  if parts.get? 2 = some expectedSig then
    match decodePayload pB64 with
    | none => none
    | some payload =>
        if payload.exp ≠ 0 ∧ payload.exp < nowSec then none else some payload
  else none

/-! ### JWT codec facts -/

theorem encField_dot_free (s : JStr) : ∀ c ∈ encField s, c ≠ '.' :=
  encField_sep_free s '.' (fun _ h => digitChar_ne_dot h)

theorem encodePayload_dot_free (p : JWTPayload) : ∀ c ∈ encodePayload p, c ≠ '.' := by
  intro c hc
  simp only [encodePayload, List.mem_append, List.mem_cons] at hc
  rcases hc with h | h | h | h | h | h | h | h | h
  · exact encField_dot_free _ _ h
  · subst h; decide
  · exact encField_dot_free _ _ h
  · subst h; decide
  · exact encNat_sep_free _ _ (fun _ hd => digitChar_ne_dot hd) _ h
  · subst h; decide
  · exact encNat_sep_free _ _ (fun _ hd => digitChar_ne_dot hd) _ h
  · subst h; decide
  · exact encField_dot_free _ _ h

theorem splitOnC_five {sep : Char} {a b c d e : JStr}
    (ha : ∀ x ∈ a, x ≠ sep) (hb : ∀ x ∈ b, x ≠ sep) (hc : ∀ x ∈ c, x ≠ sep)
    (hd : ∀ x ∈ d, x ≠ sep) (he : ∀ x ∈ e, x ≠ sep) :
    splitOnC sep (a ++ sep :: (b ++ sep :: (c ++ sep :: (d ++ sep :: e)))) =
      [a, b, c, d, e] := by
  rw [splitOnC_append ha, splitOnC_append hb, splitOnC_append hc,
    splitOnC_append hd, splitOnC_sep_free he]

theorem decodePayload_encodePayload (p : JWTPayload) :
    decodePayload (encodePayload p) = some p := by
  have hsplit : splitOnC ',' (encodePayload p) =
      [encField p.sub, encField p.scope, encNat p.iat, encNat p.exp, encField p.jti] := by
    apply splitOnC_five
    · exact encField_sep_free _ _ (fun _ h => digitChar_ne_comma h)
    · exact encField_sep_free _ _ (fun _ h => digitChar_ne_comma h)
    · exact encNat_sep_free _ _ (fun _ h => digitChar_ne_comma h)
    · exact encNat_sep_free _ _ (fun _ h => digitChar_ne_comma h)
    · exact encField_sep_free _ _ (fun _ h => digitChar_ne_comma h)
  simp [decodePayload, hsplit, decField_encField, decVal_encNat]

theorem verifyJWT_createJWT (secret : JStr) (t0 : Nat) (jti : JStr)
    (claims : JWTClaims) (ttl : Nat) (t : Nat) :
    verifyJWT secret t (createJWT secret t0 jti claims ttl) =
      (if t0 + ttl ≠ 0 ∧ t0 + ttl < t then none
       else some ⟨claims.sub, claims.scope, t0, t0 + ttl, jti⟩) := by
  have hsplit : splitOnC '.' (createJWT secret t0 jti claims ttl) =
      [headerB64, encodePayload ⟨claims.sub, claims.scope, t0, t0 + ttl, jti⟩,
       hmacSign secret (headerB64 ++ '.' ::
         encodePayload ⟨claims.sub, claims.scope, t0, t0 + ttl, jti⟩)] := by
    show splitOnC '.' (headerB64 ++ '.' :: _) = _
    exact splitOnC_three (encField_dot_free _) (encodePayload_dot_free _)
      (encField_dot_free _)
  simp only [verifyJWT]
  rw [hsplit]
  simp [jsPart, decodePayload_encodePayload]

/-! ### OAuth state management

Embedding of the `Map`-backed tables and their record types
(`OAuthTransaction`, `AuthCode`, `MetaSession`, cleanup interval). -/

/-- A `Map<string, α>` table, as a total function. -/
abbrev Store (α : Type) := JStr → Option α

/-- An empty table. -/
def Store.empty {α : Type} : Store α := fun _ => none

/-- `map.set(k, v)`. -/
def Store.insert {α : Type} (s : Store α) (k : JStr) (v : α) : Store α :=
  fun x => if x = k then some v else s x

/-- `map.delete(k)`. -/
def Store.erase {α : Type} (s : Store α) (k : JStr) : Store α :=
  fun x => if x = k then none else s x

/-- `PageTokenInfo` of `src/types.ts`. -/
structure PageTokenInfo where
  accessToken : JStr
  name : JStr
  category : Option JStr
  instagramBusinessAccountId : Option JStr
deriving DecidableEq, Repr

/-- `MetaSession` of `src/types.ts` (the upstream credential set).
`pageTokens` is the `Record<string, PageTokenInfo>` in insertion order. -/
structure MetaSession where
  userAccessToken : JStr
  userId : JStr
  userName : Option JStr
  expiresAt : Option Nat
  pageTokens : List (JStr × PageTokenInfo)
deriving DecidableEq, Repr

/-- `OAuthTransaction` of `src/index.ts`. -/
structure OAuthTransaction where
  clientId : JStr
  redirectUri : JStr
  state : JStr
  codeChallenge : Option JStr
  codeChallengeMethod : Option JStr
  scope : List JStr
  createdAt : Nat
deriving DecidableEq, Repr

/-- `AuthCode` of `src/index.ts` (the single-use authorization code record).
Note: it carries no PKCE challenge field, exactly as in the source. -/
structure AuthCode where
  clientId : JStr
  redirectUri : JStr
  metaTokens : MetaSession
  createdAt : Nat
  used : Bool
deriving DecidableEq, Repr

/-- One `tokenStore` entry (the issued bearer token record). -/
structure TokenRecord where
  metaTokens : MetaSession
  createdAt : Nat
deriving DecidableEq, Repr

/-- One `registeredClients` entry. -/
structure RegisteredClient where
  redirectUris : List JStr
  createdAt : Nat
deriving DecidableEq, Repr

/-- The four process-wide tables of `src/index.ts`. -/
structure ServerState where
  transactions : Store OAuthTransaction
  authCodes : Store AuthCode
  registeredClients : Store RegisteredClient
  tokenStore : Store TokenRecord

/-- One run of the 60-second cleanup interval of `src/index.ts`
(`now` in milliseconds).  `registeredClients` is not swept. -/
def cleanupSweep (now : Nat) (st : ServerState) : ServerState where
  transactions := fun k =>
    match st.transactions k with
    | some v => if 600000 < now - v.createdAt then none else some v
    | none => none
  authCodes := fun k =>
    match st.authCodes k with
    | some v => if 300000 < now - v.createdAt then none else some v
    | none => none
  registeredClients := st.registeredClients
  tokenStore := fun k =>
    match st.tokenStore k with
    | some v => if 3600000 < now - v.createdAt then none else some v
    | none => none

/-! ### Facebook token exchange (`exchangeFacebookCode`) -/

/-- Parsed body of a Facebook token-endpoint response. -/
structure TokenBody where
  access_token : JStr
  token_type : JStr
  expires_in : Option Nat
deriving DecidableEq, Repr

/-- Parsed body of the `/me` user-info response. -/
structure UserBody where
  id : JStr
  name : Option JStr
deriving DecidableEq, Repr

/-- One entry of the `/me/accounts` response. -/
structure PageEntry where
  id : JStr
  name : JStr
  category : Option JStr
  access_token : JStr
  instagram_business_account : Option JStr
deriving DecidableEq, Repr

/-- Parsed body of the `/me/accounts` response. -/
structure PagesBody where
  data : List PageEntry
deriving DecidableEq, Repr

/-- Outcome of the step-2 (long-lived upgrade) HTTP call.  `netErr` covers a
rejected `fetch` or a body on which `response.json()` throws — either
exception propagates out of `exchangeFacebookCode`; `parsed ok body` is a
response whose body parsed, with `ok` the HTTP success flag the code tests. -/
inductive Step2Result where
  | netErr (msg : JStr)
  | parsed (ok : Bool) (body : TokenBody)
deriving DecidableEq, Repr

/-- Environment describing how the four upstream HTTP calls respond.  For the
calls whose every failure mode ends in a thrown error (steps 1 and 3), the
outcome is collapsed to `Except` with the thrown message. -/
structure ExchangeEnv where
  step1 : Except JStr TokenBody
  step2 : Step2Result
  user : Except JStr UserBody
  pages : Except JStr PagesBody

/-- `pageTokens[page.id] = {...}` accumulated over `pagesData.data || []`:
JavaScript object assignment replaces in place, else appends. -/
def assocInsert {α : Type} : List (JStr × α) → JStr → α → List (JStr × α)
  | [], k, v => [(k, v)]
  | (k', v') :: rest, k, v =>
      if k' = k then (k, v) :: rest else (k', v') :: assocInsert rest k v

/-- The `for (const page of pagesData.data || [])` loop building `pageTokens`. -/
def buildPageTokens (pages : List PageEntry) : List (JStr × PageTokenInfo) :=
  pages.foldl
    (fun acc page =>
      assocInsert acc page.id
        ⟨page.access_token, page.name, page.category, page.instagram_business_account⟩)
    []

/-- `expiresAt: expiresIn ? Date.now() + expiresIn * 1000 : undefined`
(JavaScript falsiness: `0` and `undefined` both yield `undefined`). -/
def expiresAtOf (expiresIn : Option Nat) (nowMs : Nat) : Option Nat :=
  match expiresIn with
  | some n => if n ≠ 0 then some (nowMs + n * 1000) else none
  | none => none

/-- `exchangeFacebookCode(code, redirectUri)` of `src/index.ts`.  The `code`
and `redirectUri` arguments only feed the outbound HTTP parameters, which the
environment `env` abstracts; `nowMs` models `Date.now()`. -/
def exchangeFacebookCode (env : ExchangeEnv) (code redirectUri : JStr)
    (nowMs : Nat) : Except JStr MetaSession :=
  let _ := code
  let _ := redirectUri
  match env.step1 with
  | .error e => .error e
  | .ok tokens =>
    match env.step2 with
    | .netErr m => .error m
    | .parsed ok body =>
      let accessToken := if ok then body.access_token else tokens.access_token
      let expiresIn := if ok then body.expires_in else tokens.expires_in
      match env.user with
      | .error e => .error e
      | .ok userData =>
        match env.pages with
        | .error e => .error e
        | .ok pagesData =>
          .ok { userAccessToken := accessToken, userId := userData.id,
                userName := userData.name, expiresAt := expiresAtOf expiresIn nowMs,
                pageTokens := buildPageTokens pagesData.data }

/-! ### OAuth HTTP server (`createOAuthServer`) -/

/-- Environment-derived configuration used by the handlers. -/
structure Config where
  appId : JStr
  baseUrl : JStr
  jwtSecret : JStr
deriving DecidableEq, Repr

/-- `https://www.facebook.com/v21.0/dialog/oauth`. -/
def FACEBOOK_AUTH_ENDPOINT : JStr :=
  "https://www.facebook.com/v21.0/dialog/oauth".data

/-- The `FACEBOOK_SCOPES` constant of `src/index.ts`. -/
def FACEBOOK_SCOPES : List JStr :=
  ["pages_show_list".data, "pages_read_engagement".data, "pages_manage_posts".data,
   "pages_read_user_content".data, "pages_manage_engagement".data,
   "read_insights".data, "instagram_basic".data, "instagram_content_publish".data,
   "instagram_manage_comments".data, "instagram_manage_insights".data]

/-- `Array.prototype.join(sep)`. -/
def joinSep (sep : Char) : List JStr → JStr
  | [] => []
  | [x] => x
  | x :: rest => x ++ sep :: joinSep sep rest

/-- `FACEBOOK_SCOPES.join(" ")`, the full supported-scope string. -/
def scopeString : JStr := joinSep ' ' FACEBOOK_SCOPES

/-- A `URL` together with the query parameters set on it, in order. -/
structure UrlModel where
  base : JStr
  params : List (JStr × JStr)
deriving DecidableEq, Repr

/-- Body of the 200 response of the token endpoint. -/
structure TokenSuccessBody where
  access_token : JStr
  token_type : JStr
  expires_in : Nat
  scope : JStr
deriving DecidableEq, Repr

/-- A response written by one of the OAuth handlers. -/
inductive OAuthResponse where
  | jsonErr (status : Nat) (error : JStr) (errorDescription : Option JStr)
  | redirect (location : UrlModel)
  | tokenOk (status : Nat) (body : TokenSuccessBody)
deriving DecidableEq, Repr

/-- JavaScript falsiness of `url.searchParams.get(...)`: `null` or `""`. -/
def falsy : Option JStr → Bool
  | none => true
  | some s => s.isEmpty

/-- Query parameters read by the authorize endpoint. -/
structure AuthorizeParams where
  clientId : Option JStr
  redirectUri : Option JStr
  responseType : Option JStr
  state : Option JStr
  scope : Option JStr
  codeChallenge : Option JStr
  codeChallengeMethod : Option JStr
deriving DecidableEq, Repr

/-- The `GET /oauth/authorize` handler.  `rndState` and `rndTxnId` model the
two `crypto.randomBytes` draws; `nowMs` models `Date.now()`. -/
def authorizeEndpoint (cfg : Config) (p : AuthorizeParams) (rndState rndTxnId : JStr)
    (nowMs : Nat) (st : ServerState) : OAuthResponse × ServerState :=
  let state := match p.state with
    | some s => if s.isEmpty then rndState else s
    | none => rndState
  if falsy p.clientId = true ∨ falsy p.redirectUri = true ∨
      p.responseType ≠ some ("code".data) then
    (.jsonErr 400 ("invalid_request".data) (some ("Missing required parameters".data)), st)
  else
    let txn : OAuthTransaction :=
      { clientId := p.clientId.getD [], redirectUri := p.redirectUri.getD [],
        state := state,
        codeChallenge := match p.codeChallenge with
          | some s => if s.isEmpty then none else some s
          | none => none,
        codeChallengeMethod := match p.codeChallengeMethod with
          | some s => if s.isEmpty then none else some s
          | none => none,
        scope := match p.scope with
          | some s => splitOnC ' ' s
          | none => FACEBOOK_SCOPES,
        createdAt := nowMs }
    (.redirect
      { base := FACEBOOK_AUTH_ENDPOINT,
        params :=
          [("client_id".data, cfg.appId),
           ("redirect_uri".data, cfg.baseUrl ++ "/oauth/callback".data),
           ("state".data, rndTxnId),
           ("scope".data, joinSep ',' FACEBOOK_SCOPES),
           ("response_type".data, "code".data)] },
     { st with transactions := st.transactions.insert rndTxnId txn })

/-- Query parameters read by the callback endpoint. -/
structure CallbackParams where
  code : Option JStr
  state : Option JStr
  error : Option JStr
  errorDescription : Option JStr
deriving DecidableEq, Repr

/-- `String(err)` on the error thrown out of the exchange. -/
def errString (e : JStr) : JStr := "Error: ".data ++ e

/-- The `GET /oauth/callback` handler.  `env` abstracts the upstream HTTP
traffic of `exchangeFacebookCode`; `rndCode` models the
`crypto.randomBytes(32)` draw for the local single-use code. -/
def callbackEndpoint (cfg : Config) (p : CallbackParams) (env : ExchangeEnv)
    (rndCode : JStr) (nowMs : Nat) (st : ServerState) :
    OAuthResponse × ServerState :=
  if ¬ falsy p.error then
    (.jsonErr 400 (p.error.getD []) p.errorDescription, st)
  else if falsy p.code || falsy p.state then
    (.jsonErr 400 ("invalid_request".data) (some ("Missing code or state".data)), st)
  else
    let txnId := p.state.getD []
    match st.transactions txnId with
    | none =>
        (.jsonErr 400 ("invalid_request".data) (some ("Invalid or expired state".data)), st)
    | some txn =>
        match exchangeFacebookCode env (p.code.getD []) (cfg.baseUrl ++ "/oauth/callback".data) nowMs with
        | .ok metaTokens =>
            let ourCode := rndCode
            let st' :=
              { st with
                authCodes := st.authCodes.insert ourCode
                  { clientId := txn.clientId, redirectUri := txn.redirectUri,
                    metaTokens := metaTokens, createdAt := nowMs, used := false } }
            let st'' := { st' with transactions := st'.transactions.erase txnId }
            (.redirect
              { base := txn.redirectUri,
                params := [("code".data, ourCode), ("state".data, txn.state)] },
             st'')
        | .error err =>
            (.redirect
              { base := txn.redirectUri,
                params :=
                  [("error".data, "server_error".data),
                   ("error_description".data, errString err),
                   ("state".data, txn.state)] },
             st)

/-- The `POST /oauth/token` handler.  `body` is the parsed form body
(`URLSearchParams`); `rndJti` models the `crypto.randomBytes(16)` subject
identifier minted by the handler, `rndJwtJti` the `jti` drawn inside
`createJWT`; `nowMs` models `Date.now()`. -/
def tokenEndpoint (cfg : Config) (body : Store JStr) (rndJti rndJwtJti : JStr)
    (nowMs : Nat) (st : ServerState) : OAuthResponse × ServerState :=
  let grantType := body ("grant_type".data)
  let code := body ("code".data)
  if grantType = some ("authorization_code".data) then
    if falsy code then
      (.jsonErr 400 ("invalid_request".data) (some ("Missing code".data)), st)
    else
      let c := code.getD []
      match st.authCodes c with
      | none =>
          (.jsonErr 400 ("invalid_grant".data) (some ("Invalid or expired code".data)), st)
      | some authCode =>
          if authCode.used then
            (.jsonErr 400 ("invalid_grant".data) (some ("Code already used".data)), st)
          else
            let jti := rndJti
            let accessToken :=
              createJWT cfg.jwtSecret (nowMs / 1000) rndJwtJti ⟨jti, scopeString⟩ 3600
            (.tokenOk 200
              { access_token := accessToken, token_type := "Bearer".data,
                expires_in := 3600, scope := scopeString },
             { st with
               authCodes := st.authCodes.insert c { authCode with used := true },
               tokenStore := st.tokenStore.insert jti
                 { metaTokens := authCode.metaTokens, createdAt := nowMs } })
  else
    (.jsonErr 400 ("unsupported_grant_type".data) none, st)

/-- Body of the 200 response of the registration endpoint. -/
structure RegisterSuccessBody where
  client_id : JStr
  client_secret : JStr
  client_id_issued_at : Nat
  client_secret_expires_at : Nat
  redirect_uris : Option (List JStr)
deriving DecidableEq, Repr

/-- Full response type of the registration endpoint: either a handler error or
the registration document (the echoed constant `grant_types`/`response_types`/
`token_endpoint_auth_method` fields are omitted as static). -/
inductive RegisterResponse where
  | ok (body : RegisterSuccessBody)
deriving DecidableEq, Repr

/-- The `POST /oauth/register` handler (body already JSON-parsed;
`redirectUris` is `body.redirect_uris`, possibly absent). -/
def registerEndpoint (redirectUris : Option (List JStr)) (rndClientId : JStr)
    (nowMs : Nat) (st : ServerState) : RegisterResponse × ServerState :=
  (.ok
    { client_id := rndClientId, client_secret := rndClientId,
      client_id_issued_at := nowMs / 1000, client_secret_expires_at := 0,
      redirect_uris := redirectUris },
   { st with
     registeredClients := st.registeredClients.insert rndClientId
       { redirectUris := redirectUris.getD [], createdAt := nowMs } })

/-! ### Claim theorems -/

/-- Definitional unfolding of `verifyJWT` used to reason by cases. -/
theorem verifyJWT_eq (secret : JStr) (nowSec : Nat) (tok : JStr) :
    verifyJWT secret nowSec tok =
      (if (splitOnC '.' tok).get? 2 =
          some (hmacSign secret
            (jsPart (splitOnC '.' tok) 0 ++ '.' :: jsPart (splitOnC '.' tok) 1)) then
        match decodePayload (jsPart (splitOnC '.' tok) 1) with
        | none => none
        | some payload =>
            if payload.exp ≠ 0 ∧ payload.exp < nowSec then none else some payload
      else none) := rfl

/-- C5: verifying a token produced by issuing claims with a positive ttl
returns valid with the claims reproduced exactly when checked strictly before
`ttl` seconds have elapsed since issuance, and invalid when checked strictly
after. -/
theorem jwt_issue_verify_roundtrip (secret jti : JStr) (claims : JWTClaims)
    (ttl t0 t : Nat) (httl : 0 < ttl) :
    (t < t0 + ttl →
      verifyJWT secret t (createJWT secret t0 jti claims ttl) =
        some ⟨claims.sub, claims.scope, t0, t0 + ttl, jti⟩) ∧
    (t0 + ttl < t →
      verifyJWT secret t (createJWT secret t0 jti claims ttl) = none) := by
  constructor
  · intro h
    rw [verifyJWT_createJWT, if_neg]
    intro hcon
    omega
  · intro h
    rw [verifyJWT_createJWT, if_pos]
    exact ⟨by omega, h⟩

/-- C5 witness: a concrete issue/verify roundtrip, checked before and after
expiry. -/
theorem jwt_issue_verify_roundtrip_witness :
    verifyJWT [] 0 (createJWT [] 0 [] ⟨[], []⟩ 1) = some ⟨[], [], 0, 1, []⟩ ∧
    verifyJWT [] 2 (createJWT [] 0 [] ⟨[], []⟩ 1) = none :=
  ⟨(jwt_issue_verify_roundtrip [] [] ⟨[], []⟩ 1 0 0 (by decide)).1 (by decide),
   (jwt_issue_verify_roundtrip [] [] ⟨[], []⟩ 1 0 2 (by decide)).2 (by decide)⟩

/-- C4 counterexample: a well-signed token whose expiry timestamp equals the
current time verifies as VALID (the code tests `payload.exp < now`, strictly),
contradicting the claim that an expiry at or before the current time is
rejected. -/
theorem verify_exp_boundary_cex :
    verifyJWT [] 1 (createJWT [] 0 [] ⟨[], []⟩ 1) = some ⟨[], [], 0, 1, []⟩ := by
  rw [verifyJWT_createJWT]
  simp

/-- C4 (amended): token verification is total (never throws) and returns
invalid exactly when the third dot-separated part is missing or differs from
the signature recomputed over the first two parts, or the payload part fails
to decode, or the decoded payload carries a nonzero expiry strictly before
the current time; otherwise it returns valid with the decoded payload. -/
theorem verifyJWT_characterization (secret : JStr) (nowSec : Nat) (tok : JStr) :
    (verifyJWT secret nowSec tok = none ∨
      ∃ pl, verifyJWT secret nowSec tok = some pl) ∧
    (verifyJWT secret nowSec tok = none ↔
      ((splitOnC '.' tok).get? 2 ≠
          some (hmacSign secret
            (jsPart (splitOnC '.' tok) 0 ++ '.' :: jsPart (splitOnC '.' tok) 1)) ∨
        decodePayload (jsPart (splitOnC '.' tok) 1) = none ∨
        ∃ pl, decodePayload (jsPart (splitOnC '.' tok) 1) = some pl ∧
          pl.exp ≠ 0 ∧ pl.exp < nowSec)) ∧
    (∀ pl, verifyJWT secret nowSec tok = some pl →
      decodePayload (jsPart (splitOnC '.' tok) 1) = some pl ∧
        (pl.exp = 0 ∨ nowSec ≤ pl.exp)) := by
  by_cases hs : (splitOnC '.' tok).get? 2 =
      some (hmacSign secret
        (jsPart (splitOnC '.' tok) 0 ++ '.' :: jsPart (splitOnC '.' tok) 1))
  · cases hd : decodePayload (jsPart (splitOnC '.' tok) 1) with
    | none =>
        rw [verifyJWT_eq, if_pos hs, hd]
        exact ⟨Or.inl rfl, by simp [hd], by simp⟩
    | some pl =>
        have hv : verifyJWT secret nowSec tok =
            if pl.exp ≠ 0 ∧ pl.exp < nowSec then none else some pl := by
          rw [verifyJWT_eq, if_pos hs, hd]
        by_cases he : pl.exp ≠ 0 ∧ pl.exp < nowSec
        · rw [hv, if_pos he]
          refine ⟨Or.inl rfl, ?_, by simp⟩
          simp only [true_iff]
          exact Or.inr (Or.inr ⟨pl, rfl, he⟩)
        · rw [hv, if_neg he]
          refine ⟨Or.inr ⟨pl, rfl⟩, ?_, ?_⟩
          · constructor
            · intro hcon; cases hcon
            · rintro (h | h | ⟨pl', hpl', hz, hlt⟩)
              · exact absurd hs h
              · cases h
              · cases hpl'
                exact absurd ⟨hz, hlt⟩ he
          · rintro pl' hpl'
            cases hpl'
            refine ⟨rfl, ?_⟩
            by_cases hz : pl.exp = 0
            · exact Or.inl hz
            · right
              by_contra hlt
              exact he ⟨hz, by omega⟩
  · rw [verifyJWT_eq, if_neg hs]
    refine ⟨Or.inl rfl, ?_, by simp⟩
    simp only [true_iff]
    exact Or.inl hs

/-- C4 witness: a malformed one-part token is (totally) rejected as invalid,
via the characterization. -/
theorem verifyJWT_characterization_witness :
    verifyJWT [] 0 ['x'] = none :=
  (verifyJWT_characterization [] 0 ['x']).2.1.mpr (Or.inl (by decide))

/-- Environment for the C3 counterexample: step 1 succeeds, step 2 suffers a
network error (rejected `fetch`), steps 3/4 would succeed. -/
def cexEnvNet : ExchangeEnv :=
  { step1 := .ok ⟨"t1".data, "bearer".data, some 100⟩,
    step2 := .netErr ("boom".data),
    user := .ok ⟨"u".data, none⟩,
    pages := .ok ⟨[]⟩ }

/-- C3 counterexample: with step 1 succeeding, a NETWORK error in step 2 is
not swallowed — the whole exchange aborts with the error instead of falling
back to the short-lived token. -/
theorem step2_network_error_cex :
    exchangeFacebookCode cexEnvNet [] [] 0 = .error ("boom".data) := rfl

/-- C3 (amended): when step 1 succeeds and step 2 returns a non-success HTTP
response (with a parseable body), the failure is swallowed: the exchange still
returns a credential set whose primary access token and expiry come from the
step-1 short-lived token (provided the remaining calls succeed). -/
theorem step2_http_failure_fallback (env : ExchangeEnv) (code redirectUri : JStr)
    (nowMs : Nat) (t1 b2 : TokenBody) (u : UserBody) (pg : PagesBody)
    (h1 : env.step1 = .ok t1) (h2 : env.step2 = .parsed false b2)
    (hu : env.user = .ok u) (hp : env.pages = .ok pg) :
    exchangeFacebookCode env code redirectUri nowMs =
      .ok { userAccessToken := t1.access_token, userId := u.id, userName := u.name,
            expiresAt := expiresAtOf t1.expires_in nowMs,
            pageTokens := buildPageTokens pg.data } := by
  simp [exchangeFacebookCode, h1, h2, hu, hp]

/-- C3 witness: a concrete step-2 HTTP failure falling back to the step-1
token. -/
theorem step2_http_failure_fallback_witness :
    exchangeFacebookCode
        ⟨.ok ⟨['t'], ['b'], none⟩, .parsed false ⟨['x'], ['b'], some 9⟩,
         .ok ⟨['u'], none⟩, .ok ⟨[]⟩⟩ [] [] 0 =
      .ok { userAccessToken := ['t'], userId := ['u'], userName := none,
            expiresAt := none, pageTokens := [] } :=
  step2_http_failure_fallback _ [] [] 0 ⟨['t'], ['b'], none⟩ ⟨['x'], ['b'], some 9⟩
    ⟨['u'], none⟩ ⟨[]⟩ rfl rfl rfl rfl

/-! ### Concrete fixtures shared by several witnesses -/

/-- Concrete upstream credential set used by witnesses. -/
def wSession : MetaSession := ⟨[], [], none, none, []⟩

/-- Concrete unused single-use authorization code record used by witnesses. -/
def wAuthCode : AuthCode := ⟨[], [], wSession, 0, false⟩

/-- Concrete server state holding one unused code under key `"c"`. -/
def wState : ServerState :=
  ⟨Store.empty, Store.insert Store.empty ['c'] wAuthCode, Store.empty, Store.empty⟩

/-- Concrete token-endpoint form body
(`grant_type=authorization_code&code=c`). -/
def wBody : Store JStr := fun k =>
  if k = "grant_type".data then some ("authorization_code".data)
  else if k = "code".data then some ['c'] else none

/-- Concrete configuration used by witnesses. -/
def wCfg : Config := ⟨[], [], []⟩

/-- C1: once a redemption of a single-use authorization code has succeeded,
every subsequent POST of the same code to the token endpoint is rejected with
400 `invalid_grant` ("Code already used"), and the server state is unchanged:
no bearer token is minted and no token record is stored. -/
theorem authCode_single_use (cfg : Config) (body : Store JStr)
    (rndJti rndJwtJti : JStr) (nowMs : Nat) (st : ServerState) (c : JStr)
    (resp : OAuthResponse) (st' : ServerState)
    (hc : body ("code".data) = some c)
    (h : tokenEndpoint cfg body rndJti rndJwtJti nowMs st = (resp, st'))
    (hok : ∃ b, resp = .tokenOk 200 b) :
    (∃ ac, st'.authCodes c = some ac ∧ ac.used = true) ∧
    ∀ (body2 : Store JStr) (rj2 rjw2 : JStr) (now2 : Nat),
      body2 ("grant_type".data) = some ("authorization_code".data) →
      body2 ("code".data) = some c →
      tokenEndpoint cfg body2 rj2 rjw2 now2 st' =
        (.jsonErr 400 ("invalid_grant".data) (some ("Code already used".data)), st') := by
  obtain ⟨b, rfl⟩ := hok
  by_cases hg : body ("grant_type".data) = some ("authorization_code".data)
  · by_cases hf : falsy (body ("code".data))
    · simp [tokenEndpoint, hg, hf] at h
    · have hcne : c ≠ [] := by
        rw [hc] at hf
        simp [falsy] at hf
        exact hf
      have hce : c.isEmpty = false := by
        cases c with
        | nil => exact absurd rfl hcne
        | cons x xs => rfl
      cases hac : st.authCodes c with
      | none => simp [tokenEndpoint, hg, hc, falsy, hce, hac] at h
      | some ac =>
          by_cases hu : ac.used
          · simp [tokenEndpoint, hg, hc, falsy, hce, hac, hu] at h
          · have heq : tokenEndpoint cfg body rndJti rndJwtJti nowMs st =
                (.tokenOk 200
                  ⟨createJWT cfg.jwtSecret (nowMs / 1000) rndJwtJti
                     ⟨rndJti, scopeString⟩ 3600,
                   "Bearer".data, 3600, scopeString⟩,
                 { st with
                   authCodes := st.authCodes.insert c { ac with used := true },
                   tokenStore := st.tokenStore.insert rndJti ⟨ac.metaTokens, nowMs⟩ }) := by
              simp [tokenEndpoint, hg, hc, falsy, hce, hac, hu]
            rw [heq] at h
            injection h with h1 h2
            subst h2
            refine ⟨⟨{ ac with used := true }, by simp [Store.insert], rfl⟩, ?_⟩
            intro body2 rj2 rjw2 now2 hg2 hc2
            simp [tokenEndpoint, hg2, hc2, falsy, hce, Store.insert]
  · simp [tokenEndpoint, hg] at h

/-- C1 witness: after a concrete successful redemption of code `"c"`, a second
redemption of the same code fails with "Code already used" and leaves the
state unchanged. -/
theorem authCode_single_use_witness :
    (∃ ac, (tokenEndpoint wCfg wBody [] [] 0 wState).2.authCodes ['c'] = some ac ∧
      ac.used = true) ∧
    tokenEndpoint wCfg wBody [] [] 0 (tokenEndpoint wCfg wBody [] [] 0 wState).2 =
      (.jsonErr 400 ("invalid_grant".data) (some ("Code already used".data)),
       (tokenEndpoint wCfg wBody [] [] 0 wState).2) :=
  ⟨(authCode_single_use wCfg wBody [] [] 0 wState ['c'] _ _ rfl rfl ⟨_, rfl⟩).1,
   (authCode_single_use wCfg wBody [] [] 0 wState ['c'] _ _ rfl rfl ⟨_, rfl⟩).2
     wBody [] [] 0 rfl rfl⟩

/-- C6: the token endpoint rejects every grant type other than
`authorization_code` with 400 `unsupported_grant_type`; redeeming a stored,
unexpired, unused code marks it used, mints a signed bearer token whose claims
are the fresh subject identifier and the full supported-scope string (ttl
3600s), stores a token record holding the code's credential set under that
subject identifier, and responds 200 with the token, type "Bearer",
`expires_in` 3600 and the full scope string. -/
theorem token_endpoint_contract (cfg : Config) (body : Store JStr)
    (rndJti rndJwtJti : JStr) (nowMs : Nat) (st : ServerState) :
    (body ("grant_type".data) ≠ some ("authorization_code".data) →
      tokenEndpoint cfg body rndJti rndJwtJti nowMs st =
        (.jsonErr 400 ("unsupported_grant_type".data) none, st)) ∧
    (∀ c ac, body ("grant_type".data) = some ("authorization_code".data) →
      body ("code".data) = some c → c ≠ [] →
      st.authCodes c = some ac → nowMs - ac.createdAt ≤ 300000 → ac.used = false →
      tokenEndpoint cfg body rndJti rndJwtJti nowMs st =
        (.tokenOk 200
          { access_token := createJWT cfg.jwtSecret (nowMs / 1000) rndJwtJti
              ⟨rndJti, scopeString⟩ 3600,
            token_type := "Bearer".data, expires_in := 3600, scope := scopeString },
         { st with
           authCodes := st.authCodes.insert c { ac with used := true },
           tokenStore := st.tokenStore.insert rndJti ⟨ac.metaTokens, nowMs⟩ })) := by
  constructor
  · intro hg
    simp [tokenEndpoint, hg]
  · intro c ac hg hc hcne hac _ hu
    have hce : c.isEmpty = false := by
      cases c with
      | nil => exact absurd rfl hcne
      | cons x xs => rfl
    simp [tokenEndpoint, hg, hc, falsy, hce, hac, hu]

/-- C6 witness: a concrete redemption of the stored code `"c"` producing the
full 200 response and the updated stores. -/
theorem token_endpoint_contract_witness :
    tokenEndpoint wCfg wBody [] [] 0 wState =
      (.tokenOk 200
        { access_token := createJWT [] 0 [] ⟨[], scopeString⟩ 3600,
          token_type := "Bearer".data, expires_in := 3600, scope := scopeString },
       { wState with
         authCodes := wState.authCodes.insert ['c'] { wAuthCode with used := true },
         tokenStore := wState.tokenStore.insert [] ⟨wAuthCode.metaTokens, 0⟩ }) :=
  (token_endpoint_contract wCfg wBody [] [] 0 wState).2 ['c'] wAuthCode rfl rfl
    (by decide) rfl (by decide) rfl

/-- C7: a callback carrying a code and a state value that matches no stored
transaction answers directly with 400 `invalid_request` JSON — it does not
redirect — and leaves the state unchanged. -/
theorem callback_unknown_state_direct_error (cfg : Config) (p : CallbackParams)
    (env : ExchangeEnv) (rndCode : JStr) (nowMs : Nat) (st : ServerState)
    (c tid : JStr)
    (he : p.error = none) (hc : p.code = some c) (hcne : c ≠ [])
    (hs : p.state = some tid) (htne : tid ≠ [])
    (hmiss : st.transactions tid = none) :
    callbackEndpoint cfg p env rndCode nowMs st =
      (.jsonErr 400 ("invalid_request".data)
        (some ("Invalid or expired state".data)), st) := by
  have hce : c.isEmpty = false := by
    cases c with
    | nil => exact absurd rfl hcne
    | cons x xs => rfl
  have hte : tid.isEmpty = false := by
    cases tid with
    | nil => exact absurd rfl htne
    | cons x xs => rfl
  simp [callbackEndpoint, he, hc, hs, falsy, hce, hte, hmiss]

/-- C7 witness: a concrete callback with an unknown state value. -/
theorem callback_unknown_state_direct_error_witness :
    callbackEndpoint wCfg ⟨some ['c'], some ['t'], none, none⟩ cexEnvNet [] 0 wState =
      (.jsonErr 400 ("invalid_request".data)
        (some ("Invalid or expired state".data)), wState) :=
  callback_unknown_state_direct_error wCfg ⟨some ['c'], some ['t'], none, none⟩
    cexEnvNet [] 0 wState ['c'] ['t'] rfl rfl (by decide) rfl (by decide) rfl

/-- Concrete pending transaction used by the C2/C8 fixtures. -/
def cexTxn : OAuthTransaction := ⟨[], [], [], none, none, [], 0⟩

/-- Concrete server state holding one pending transaction under key `"t"`. -/
def cexStTxn : ServerState :=
  ⟨Store.insert Store.empty ['t'] cexTxn, Store.empty, Store.empty, Store.empty⟩

/-- Exchange environment in which everything succeeds (step 2 upgraded). -/
def wEnvOk : ExchangeEnv :=
  ⟨.ok ⟨['t'], ['b'], none⟩, .parsed true ⟨['l'], ['b'], none⟩,
   .ok ⟨['u'], none⟩, .ok ⟨[]⟩⟩

/-- C2 counterexample: when the upstream exchange fails, the callback answers
with the `server_error` redirect but does NOT delete the pending transaction —
the transaction is still present in the table afterwards, contradicting the
claim that the transaction is consumed on success and failure alike. -/
theorem callback_failure_retains_transaction_cex :
    (callbackEndpoint wCfg ⟨some ['c'], some ['t'], none, none⟩ cexEnvNet [] 0
        cexStTxn).2.transactions ['t'] = some cexTxn := rfl

/-- C2 (amended): the callback deletes the pending transaction exactly when
the upstream exchange succeeds (storing the new single-use code before the
success redirect); when the exchange fails, the callback issues the
`server_error` redirect and leaves the entire state — the transaction
included — untouched. -/
theorem callback_transaction_lifecycle (cfg : Config) (p : CallbackParams)
    (env : ExchangeEnv) (rndCode : JStr) (nowMs : Nat) (st : ServerState)
    (tid : JStr) (txn : OAuthTransaction) (c : JStr)
    (he : p.error = none) (hc : p.code = some c) (hcne : c ≠ [])
    (hs : p.state = some tid) (htne : tid ≠ [])
    (htxn : st.transactions tid = some txn) :
    (∀ s, exchangeFacebookCode env c (cfg.baseUrl ++ "/oauth/callback".data) nowMs = .ok s →
      callbackEndpoint cfg p env rndCode nowMs st =
        (.redirect ⟨txn.redirectUri, [("code".data, rndCode), ("state".data, txn.state)]⟩,
         { st with
           transactions := st.transactions.erase tid,
           authCodes := st.authCodes.insert rndCode
             ⟨txn.clientId, txn.redirectUri, s, nowMs, false⟩ }) ∧
      (callbackEndpoint cfg p env rndCode nowMs st).2.transactions tid = none) ∧
    (∀ e, exchangeFacebookCode env c (cfg.baseUrl ++ "/oauth/callback".data) nowMs = .error e →
      callbackEndpoint cfg p env rndCode nowMs st =
        (.redirect ⟨txn.redirectUri,
          [("error".data, "server_error".data),
           ("error_description".data, errString e), ("state".data, txn.state)]⟩, st)) := by
  have hce : c.isEmpty = false := by
    cases c with
    | nil => exact absurd rfl hcne
    | cons x xs => rfl
  have hte : tid.isEmpty = false := by
    cases tid with
    | nil => exact absurd rfl htne
    | cons x xs => rfl
  constructor
  · intro s hex
    have heq : callbackEndpoint cfg p env rndCode nowMs st =
        (.redirect ⟨txn.redirectUri, [("code".data, rndCode), ("state".data, txn.state)]⟩,
         { st with
           transactions := st.transactions.erase tid,
           authCodes := st.authCodes.insert rndCode
             ⟨txn.clientId, txn.redirectUri, s, nowMs, false⟩ }) := by
      simp [callbackEndpoint, he, hc, hs, falsy, hce, hte, htxn, hex]
    refine ⟨heq, ?_⟩
    rw [heq]
    simp [Store.erase]
  · intro e hex
    simp [callbackEndpoint, he, hc, hs, falsy, hce, hte, htxn, hex]

/-- C2 witness: a concrete successful callback deleting the transaction and
storing the single-use code. -/
theorem callback_transaction_lifecycle_witness :
    callbackEndpoint wCfg ⟨some ['c'], some ['t'], none, none⟩ wEnvOk ['k'] 0 cexStTxn =
      (.redirect ⟨cexTxn.redirectUri, [("code".data, ['k']), ("state".data, cexTxn.state)]⟩,
       { cexStTxn with
         transactions := cexStTxn.transactions.erase ['t'],
         authCodes := cexStTxn.authCodes.insert ['k']
           ⟨cexTxn.clientId, cexTxn.redirectUri, ⟨['l'], ['u'], none, none, []⟩, 0, false⟩ }) ∧
    (callbackEndpoint wCfg ⟨some ['c'], some ['t'], none, none⟩ wEnvOk ['k'] 0
        cexStTxn).2.transactions ['t'] = none :=
  (callback_transaction_lifecycle wCfg ⟨some ['c'], some ['t'], none, none⟩ wEnvOk
      ['k'] 0 cexStTxn ['t'] cexTxn ['c'] rfl rfl (by decide) rfl (by decide) rfl).1
    ⟨['l'], ['u'], none, none, []⟩ rfl

/-- C8: one sweep run removes from each swept table exactly the entries whose
age (in ms) exceeds that table's TTL — 600000 for transactions, 300000 for
codes, 3600000 for token records — leaves every younger entry in place, never
touches the registered-clients table, and a transaction whose age exceeds its
TTL is unresolvable by the callback endpoint after the sweep. -/
theorem cleanup_sweep_spec (now : Nat) (st : ServerState) :
    (∀ k v, (cleanupSweep now st).transactions k = some v ↔
      (st.transactions k = some v ∧ now - v.createdAt ≤ 600000)) ∧
    (∀ k v, (cleanupSweep now st).authCodes k = some v ↔
      (st.authCodes k = some v ∧ now - v.createdAt ≤ 300000)) ∧
    (∀ k v, (cleanupSweep now st).tokenStore k = some v ↔
      (st.tokenStore k = some v ∧ now - v.createdAt ≤ 3600000)) ∧
    (∀ k, (cleanupSweep now st).registeredClients k = st.registeredClients k) ∧
    (∀ k v, st.transactions k = some v → 600000 < now - v.createdAt → k ≠ [] →
      ∀ (cfg : Config) (p : CallbackParams) (env : ExchangeEnv) (rndCode : JStr)
        (now2 : Nat) (c : JStr),
        p.error = none → p.code = some c → c ≠ [] → p.state = some k →
        callbackEndpoint cfg p env rndCode now2 (cleanupSweep now st) =
          (.jsonErr 400 ("invalid_request".data)
            (some ("Invalid or expired state".data)), cleanupSweep now st)) := by
  refine ⟨?_, ?_, ?_, fun k => rfl, ?_⟩
  · intro k v
    simp only [cleanupSweep]
    cases hm : st.transactions k with
    | none => simp
    | some w =>
        by_cases hb : 600000 < now - w.createdAt
        · simp only [if_pos hb]
          constructor
          · intro h; cases h
          · rintro ⟨hv, hle⟩
            injection hv with hv
            subst hv
            exact absurd hle (by omega)
        · simp only [if_neg hb]
          constructor
          · intro h
            injection h with h
            subst h
            exact ⟨rfl, by omega⟩
          · rintro ⟨hv, _⟩
            exact hv
  · intro k v
    simp only [cleanupSweep]
    cases hm : st.authCodes k with
    | none => simp
    | some w =>
        by_cases hb : 300000 < now - w.createdAt
        · simp only [if_pos hb]
          constructor
          · intro h; cases h
          · rintro ⟨hv, hle⟩
            injection hv with hv
            subst hv
            exact absurd hle (by omega)
        · simp only [if_neg hb]
          constructor
          · intro h
            injection h with h
            subst h
            exact ⟨rfl, by omega⟩
          · rintro ⟨hv, _⟩
            exact hv
  · intro k v
    simp only [cleanupSweep]
    cases hm : st.tokenStore k with
    | none => simp
    | some w =>
        by_cases hb : 3600000 < now - w.createdAt
        · simp only [if_pos hb]
          constructor
          · intro h; cases h
          · rintro ⟨hv, hle⟩
            injection hv with hv
            subst hv
            exact absurd hle (by omega)
        · simp only [if_neg hb]
          constructor
          · intro h
            injection h with h
            subst h
            exact ⟨rfl, by omega⟩
          · rintro ⟨hv, _⟩
            exact hv
  · intro k v hk hage hkne cfg p env rndCode now2 c he hc hcne hs
    have hmiss : (cleanupSweep now st).transactions k = none := by
      simp [cleanupSweep, hk, hage]
    have hce : c.isEmpty = false := by
      cases c with
      | nil => exact absurd rfl hcne
      | cons x xs => rfl
    have hte : k.isEmpty = false := by
      cases k with
      | nil => exact absurd rfl hkne
      | cons x xs => rfl
    simp [callbackEndpoint, he, hc, hs, falsy, hce, hte, hmiss]

/-- C8 witness: sweeping a concrete state at a time past the transaction TTL
makes the stored transaction unresolvable by the callback. -/
theorem cleanup_sweep_spec_witness :
    callbackEndpoint wCfg ⟨some ['c'], some ['t'], none, none⟩ cexEnvNet [] 0
        (cleanupSweep 700000 cexStTxn) =
      (.jsonErr 400 ("invalid_request".data)
        (some ("Invalid or expired state".data)), cleanupSweep 700000 cexStTxn) :=
  (cleanup_sweep_spec 700000 cexStTxn).2.2.2.2 ['t'] cexTxn rfl (by decide) (by decide)
    wCfg ⟨some ['c'], some ['t'], none, none⟩ cexEnvNet [] 0 ['c'] rfl rfl
    (by decide) rfl

/-- Concrete token-endpoint form body carrying, besides `grant_type` and
`code`, a PKCE `code_verifier` and client credentials — all ignored by the
handler. -/
def wBody2 : Store JStr := fun k =>
  if k = "grant_type".data then some ("authorization_code".data)
  else if k = "code".data then some ['c']
  else if k = "code_verifier".data then some ['v']
  else if k = "client_id".data then some ['x']
  else if k = "client_secret".data then some ['y']
  else if k = "redirect_uri".data then some ['r'] else none

/-- C9: redemption needs only possession of the code string.  (1) The token
endpoint reads nothing from the request body except `grant_type` and `code`
— in particular no `code_verifier`, `client_id`, `client_secret` or
`redirect_uri`.  (2) Its response never depends on the client identifier,
redirect URI, credential set or creation time stored with the code — only the
`used` flag matters.  (3) The single-use code record the callback stores is
unaffected by the transaction's PKCE challenge fields, which are not carried
into it at all. -/
theorem token_redemption_bearer_only :
    (∀ (cfg : Config) (b1 b2 : Store JStr) (rj rjw : JStr) (nowMs : Nat)
        (st : ServerState),
      b1 ("grant_type".data) = b2 ("grant_type".data) →
      b1 ("code".data) = b2 ("code".data) →
      tokenEndpoint cfg b1 rj rjw nowMs st = tokenEndpoint cfg b2 rj rjw nowMs st) ∧
    (∀ (cfg : Config) (body : Store JStr) (rj rjw : JStr) (nowMs : Nat)
        (st1 st2 : ServerState) (c : JStr) (ac1 ac2 : AuthCode),
      body ("code".data) = some c →
      st1.authCodes c = some ac1 → st2.authCodes c = some ac2 →
      ac1.used = ac2.used →
      (tokenEndpoint cfg body rj rjw nowMs st1).1 =
        (tokenEndpoint cfg body rj rjw nowMs st2).1) ∧
    (∀ (cfg : Config) (p : CallbackParams) (env : ExchangeEnv) (rndCode : JStr)
        (nowMs : Nat) (st : ServerState) (tid : JStr) (txn : OAuthTransaction)
        (cc ccm : Option JStr),
      (callbackEndpoint cfg p env rndCode nowMs
          { st with transactions :=
              (st.transactions.insert tid
                { txn with codeChallenge := cc, codeChallengeMethod := ccm }) }).2.authCodes =
        (callbackEndpoint cfg p env rndCode nowMs
          { st with transactions := st.transactions.insert tid txn }).2.authCodes) := by
  refine ⟨?_, ?_, ?_⟩
  · intro cfg b1 b2 rj rjw nowMs st hg hcd
    simp only [tokenEndpoint, hg, hcd]
  · intro cfg body rj rjw nowMs st1 st2 c ac1 ac2 hcd h1 h2 hu
    by_cases hg : body ("grant_type".data) = some ("authorization_code".data)
    · by_cases hf : falsy (body ("code".data)) = true
      · simp [tokenEndpoint, hg, hf]
      · have hcne : c ≠ [] := by
          rw [hcd] at hf
          simp [falsy] at hf
          exact hf
        have hce : c.isEmpty = false := by
          cases c with
          | nil => exact absurd rfl hcne
          | cons x xs => rfl
        by_cases hb : ac1.used
        · have hb2 : ac2.used = true := hu ▸ hb
          simp [tokenEndpoint, hg, hcd, falsy, hce, h1, h2, hb, hb2]
        · have hb2 : ¬ ac2.used = true := fun hx => hb (by rw [hu]; exact hx)
          simp [tokenEndpoint, hg, hcd, falsy, hce, h1, h2, hb, hb2]
    · simp [tokenEndpoint, hg]
  · intro cfg p env rndCode nowMs st tid txn cc ccm
    by_cases he : falsy p.error = true
    · by_cases hcs : (falsy p.code || falsy p.state) = true
      · simp [callbackEndpoint, he, hcs]
      · by_cases hk : p.state.getD [] = tid
        · simp only [callbackEndpoint, he, hcs, Store.insert, hk, if_pos rfl]
          cases hex : exchangeFacebookCode env (p.code.getD [])
              (cfg.baseUrl ++ "/oauth/callback".data) nowMs with
          | ok s => simp [he, hcs, hk, hex]
          | error e => simp [he, hcs, hk, hex]
        · simp only [callbackEndpoint, he, hcs, Store.insert, hk, if_neg hk]
          cases hm : st.transactions (p.state.getD []) with
          | none => simp [he, hcs, hk, hm]
          | some txn2 =>
              cases hex : exchangeFacebookCode env (p.code.getD [])
                  (cfg.baseUrl ++ "/oauth/callback".data) nowMs with
              | ok s => simp [he, hcs, hk, hm, hex]
              | error e => simp [he, hcs, hk, hm, hex]
    · simp [callbackEndpoint, he]

/-- C9 witness: the concrete redemption of code `"c"` is identical whether or
not the body also carries `code_verifier`, `client_id`, `client_secret` and
`redirect_uri`. -/
theorem token_redemption_bearer_only_witness :
    tokenEndpoint wCfg wBody [] [] 0 wState = tokenEndpoint wCfg wBody2 [] [] 0 wState :=
  token_redemption_bearer_only.1 wCfg wBody wBody2 [] [] 0 wState rfl rfl

/-- Helper: the authorize handler's response and transaction update do not
depend on the registered-clients table. -/
theorem authorizeEndpoint_regClients_invariant (cfg : Config) (p : AuthorizeParams)
    (rndState rndTxnId : JStr) (nowMs : Nat) (st : ServerState)
    (R : Store RegisteredClient) :
    (authorizeEndpoint cfg p rndState rndTxnId nowMs
        { st with registeredClients := R }).1 =
      (authorizeEndpoint cfg p rndState rndTxnId nowMs st).1 ∧
    (authorizeEndpoint cfg p rndState rndTxnId nowMs
        { st with registeredClients := R }).2.transactions =
      (authorizeEndpoint cfg p rndState rndTxnId nowMs st).2.transactions := by
  by_cases hcond : falsy p.clientId = true ∨ falsy p.redirectUri = true ∨
      p.responseType ≠ some ("code".data)
  · simp [authorizeEndpoint, hcond]
  · simp [authorizeEndpoint, hcond]

/-- Helper: the callback handler's response does not depend on the
registered-clients table. -/
theorem callbackEndpoint_regClients_invariant (cfg : Config) (p : CallbackParams)
    (env : ExchangeEnv) (rndCode : JStr) (nowMs : Nat) (st : ServerState)
    (R : Store RegisteredClient) :
    (callbackEndpoint cfg p env rndCode nowMs { st with registeredClients := R }).1 =
      (callbackEndpoint cfg p env rndCode nowMs st).1 := by
  by_cases he : falsy p.error = true
  · by_cases hcs : (falsy p.code || falsy p.state) = true
    · simp [callbackEndpoint, he, hcs]
    · simp only [callbackEndpoint, he, hcs]
      cases hm : st.transactions (p.state.getD []) with
      | none => simp [he, hcs, hm]
      | some txn =>
          cases hex : exchangeFacebookCode env (p.code.getD [])
              (cfg.baseUrl ++ "/oauth/callback".data) nowMs with
          | ok s => simp [he, hcs, hm, hex]
          | error e => simp [he, hcs, hm, hex]
  · simp [callbackEndpoint, he]

/-- Helper: the token handler's response does not depend on the
registered-clients table. -/
theorem tokenEndpoint_regClients_invariant (cfg : Config) (body : Store JStr)
    (rndJti rndJwtJti : JStr) (nowMs : Nat) (st : ServerState)
    (R : Store RegisteredClient) :
    (tokenEndpoint cfg body rndJti rndJwtJti nowMs { st with registeredClients := R }).1 =
      (tokenEndpoint cfg body rndJti rndJwtJti nowMs st).1 := by
  by_cases hg : body ("grant_type".data) = some ("authorization_code".data)
  · by_cases hf : falsy (body ("code".data)) = true
    · simp [tokenEndpoint, hg, hf]
    · simp only [tokenEndpoint, hg, hf, if_pos rfl]
      cases hm : st.authCodes ((body ("code".data)).getD []) with
      | none => simp [hg, hf, hm]
      | some ac => by_cases hb : ac.used <;> simp [hg, hf, hm, hb]
  · simp [tokenEndpoint, hg]

/-- C10: for every authorize request with non-empty `client_id`, non-empty
`redirect_uri` and `response_type` exactly `"code"`, a transaction is stored
and a 302 redirect to the upstream authorization endpoint is returned —
regardless of the contents of the registered-clients table, which no endpoint
ever consults (the authorize, callback and token responses are invariant
under replacing that table, and registration writes it without reading it). -/
theorem authorize_ignores_registered_clients :
    (∀ (cfg : Config) (p : AuthorizeParams) (rndState rndTxnId : JStr)
        (nowMs : Nat) (st : ServerState),
      falsy p.clientId = false → falsy p.redirectUri = false →
      p.responseType = some ("code".data) →
      authorizeEndpoint cfg p rndState rndTxnId nowMs st =
        (.redirect
          { base := FACEBOOK_AUTH_ENDPOINT,
            params :=
              [("client_id".data, cfg.appId),
               ("redirect_uri".data, cfg.baseUrl ++ "/oauth/callback".data),
               ("state".data, rndTxnId),
               ("scope".data, joinSep ',' FACEBOOK_SCOPES),
               ("response_type".data, "code".data)] },
         { st with transactions :=
            (st.transactions.insert rndTxnId
              { clientId := p.clientId.getD [], redirectUri := p.redirectUri.getD [],
                state := (match p.state with
                  | some s => if s.isEmpty then rndState else s
                  | none => rndState),
                codeChallenge := (match p.codeChallenge with
                  | some s => if s.isEmpty then none else some s
                  | none => none),
                codeChallengeMethod := (match p.codeChallengeMethod with
                  | some s => if s.isEmpty then none else some s
                  | none => none),
                scope := (match p.scope with
                  | some s => splitOnC ' ' s
                  | none => FACEBOOK_SCOPES),
                createdAt := nowMs }) })) ∧
    (∀ (cfg : Config) (p : AuthorizeParams) (rndState rndTxnId : JStr)
        (nowMs : Nat) (st : ServerState) (R : Store RegisteredClient),
      (authorizeEndpoint cfg p rndState rndTxnId nowMs
          { st with registeredClients := R }).1 =
        (authorizeEndpoint cfg p rndState rndTxnId nowMs st).1 ∧
      (authorizeEndpoint cfg p rndState rndTxnId nowMs
          { st with registeredClients := R }).2.transactions =
        (authorizeEndpoint cfg p rndState rndTxnId nowMs st).2.transactions) ∧
    (∀ (cfg : Config) (p : CallbackParams) (env : ExchangeEnv) (rndCode : JStr)
        (nowMs : Nat) (st : ServerState) (R : Store RegisteredClient),
      (callbackEndpoint cfg p env rndCode nowMs { st with registeredClients := R }).1 =
        (callbackEndpoint cfg p env rndCode nowMs st).1) ∧
    (∀ (cfg : Config) (body : Store JStr) (rndJti rndJwtJti : JStr) (nowMs : Nat)
        (st : ServerState) (R : Store RegisteredClient),
      (tokenEndpoint cfg body rndJti rndJwtJti nowMs
          { st with registeredClients := R }).1 =
        (tokenEndpoint cfg body rndJti rndJwtJti nowMs st).1) ∧
    (∀ (uris : Option (List JStr)) (rnd : JStr) (nowMs : Nat) (st : ServerState)
        (R : Store RegisteredClient),
      (registerEndpoint uris rnd nowMs { st with registeredClients := R }).1 =
        (registerEndpoint uris rnd nowMs st).1) := by
  refine ⟨?_, ?_, ?_, ?_, ?_⟩
  · intro cfg p rndState rndTxnId nowMs st hc hr hrt
    have hcond : ¬ (falsy p.clientId = true ∨ falsy p.redirectUri = true ∨
        p.responseType ≠ some ("code".data)) := by
      simp [hc, hr, hrt]
    simp [authorizeEndpoint, hcond]
  · exact authorizeEndpoint_regClients_invariant
  · exact callbackEndpoint_regClients_invariant
  · exact tokenEndpoint_regClients_invariant
  · intro uris rnd nowMs st R
    rfl

/-- C10 witness: a concrete authorize request with an unregistered client id
(empty registered-clients table) stores a transaction and redirects upstream. -/
theorem authorize_ignores_registered_clients_witness :
    authorizeEndpoint wCfg ⟨some ['x'], some ['r'], some ("code".data), none, none, none, none⟩
        [] ['t'] 0 wState =
      (.redirect
        { base := FACEBOOK_AUTH_ENDPOINT,
          params :=
            [("client_id".data, []), ("redirect_uri".data, "/oauth/callback".data),
             ("state".data, ['t']), ("scope".data, joinSep ',' FACEBOOK_SCOPES),
             ("response_type".data, "code".data)] },
       { wState with transactions :=
          (wState.transactions.insert ['t']
            { clientId := ['x'], redirectUri := ['r'], state := [],
              codeChallenge := none, codeChallengeMethod := none,
              scope := FACEBOOK_SCOPES, createdAt := 0 }) }) :=
  authorize_ignores_registered_clients.1 wCfg
    ⟨some ['x'], some ['r'], some ("code".data), none, none, none, none⟩
    [] ['t'] 0 wState rfl rfl rfl

end MetaGraph
